import Mathlib

/-!
# Verification of the `Pool<TType>` object pool of libftpp

Shallow embedding of `src/libftpp/inc/data_structures/pool.hpp`.

The C++ `Pool<TType>` holds
  * `std::vector<TType*> m_objects`  — the slot store (one heap object per slot),
  * `std::vector<size_t> m_available` — the free-index stack
    (`push_back` / `back` / `pop_back`, i.e. the back of the vector is the
    top of the stack).

Modelling choices, all visible to a reviewer diffing against the source:

* A slot's storage is modelled as `Option α`: `some v` means the slot holds a
  currently-constructed object with value `v`; `none` means the slot's object
  has been destroyed (`ptr->~TType()`) and not reconstructed — the state a
  slot is left in when in-place reconstruction inside `acquire` fails.
* The free-index stack is a `List Nat` with the TOP OF THE STACK AT THE HEAD
  (C++ `push_back`/`back`/`pop_back` on the vector become `cons`/`head`/`tail`).
* Construction of a `TType` can throw: a constructor call is modelled as an
  `Option α` — `some v` is a successful construction producing value `v`,
  `none` is a thrown exception.  `resize` default-constructs `n` objects in a
  loop, so it takes `mk : Nat → Option α`, the outcome of the `i`-th
  `new TType()`.
* C++ exceptions become an `Option PoolError` component of each result;
  when an error is reported the returned pool is the state the C++ object is
  left in when the exception escapes the method.
* Destruction of objects (`delete ptr` / `ptr->~TType()`) is observable only
  through the slot store and, for `resize` and pool destruction, through an
  explicit list of the objects that were destroyed by the call.
* `size_t` arithmetic: sizes are `Nat`; the one place the source can
  underflow (`inUse`, computed as `m_objects.size() - m_available.size()`)
  is modelled with wraparound modulo `2^64` made explicit.
-/

namespace Libftpp

/-- Width of `size_t` on the target platform: `2 ^ 64`. -/
def U64 : Nat := 2 ^ 64

/-- Errors a `Pool` operation can signal (C++ exceptions escaping the call):
`exhausted` is the `std::runtime_error("Pool is empty...")` thrown by
`acquire`; `constructionFailed` is an exception propagated out of `TType`'s
constructor during `acquire`'s placement `new`; `allocationFailed` is any
exception caught and re-thrown by `resize` (allocation failure or a default
construction failing). -/
inductive PoolError where
  | exhausted
  | constructionFailed
  | allocationFailed
deriving DecidableEq, Repr

/-- The state of a `Pool<TType>`: slot store `m_objects` (a slot is `some v`
when it holds a constructed object, `none` when its object was destroyed and
not reconstructed) and free-index stack `m_available` (top at the head). -/
structure Pool (α : Type) where
  m_objects : List (Option α)
  m_available : List Nat
deriving DecidableEq, Repr

/-- A freshly default-constructed `Pool` (both vectors empty). -/
def Pool.empty (α : Type) : Pool α := ⟨[], []⟩

/-- `Pool<TType>::size()`: `return m_objects.size();` -/
def Pool.size (p : Pool α) : Nat := p.m_objects.length

/-- `Pool<TType>::available()`: `return m_available.size();` -/
def Pool.available (p : Pool α) : Nat := p.m_available.length

/-- `Pool<TType>::inUse()`: `return m_objects.size() - m_available.size();`
`size_t` subtraction, so it wraps modulo `2^64` when
`m_available.size() > m_objects.size()`. -/
def Pool.inUse (p : Pool α) : Nat := (U64 + p.size - p.available) % U64

/-- `Pool<TType>::isEmpty()`: `return m_available.empty();` -/
def Pool.isEmpty (p : Pool α) : Bool := p.m_available.isEmpty

/-- `Pool<TType>::isFull()`: `return m_available.size() == m_objects.size();` -/
def Pool.isFull (p : Pool α) : Bool := p.available == p.size

/-- `Pool<TType>::returnToPool(size_t index)`:
`m_available.push_back(index);` (push onto the top of the stack). -/
def Pool.returnToPool (index : Nat) (p : Pool α) : Pool α :=
  { p with m_available := index :: p.m_available }

/-- The loop body of `Pool<TType>::resize`: for `i = 0 .. n-1` do
`m_objects.push_back(new TType()); m_available.push_back(i);`, starting from
empty vectors.  `mk i` is the outcome of the `i`-th `new TType()`; the first
`none` makes the whole build fail (the exception propagates to the `catch`).
On success returns the new slot store (in index order) and the new free-index
stack (top of stack = last pushed = `n-1`). -/
def buildStore (mk : Nat → Option α) : Nat → Option (List (Option α) × List Nat)
  | 0 => some ([], [])
  | n + 1 =>
    match buildStore mk n with
    | none => none
    | some (objs, avail) =>
      match mk n with
      | none => none
      | some v => some (objs ++ [some v], n :: avail)

/-- `Pool<TType>::resize(const size_t&)`.  The source moves `m_objects` and
`m_available` into locals `oldObjects` / `oldAvailable`, rebuilds both vectors
inside a `try`, and on success deletes the old objects; the `catch` block
moves the locals back and re-throws.  Result: the pool state after the call,
the list of objects destroyed by the call (the old slot store, deleted only
in the success branch), and the error, if any, that the call propagates. -/
def Pool.resize (mk : Nat → Option α) (n : Nat) (p : Pool α) :
    Pool α × List (Option α) × Option PoolError :=
  match buildStore mk n with
  | some (objs, avail) => (⟨objs, avail⟩, p.m_objects, none)
  | none => (⟨p.m_objects, p.m_available⟩, [], some .allocationFailed)

/-- `Pool<TType>::Object`, the RAII lease handle.  `m_ptr` is the managed
object pointer: `some i` stands for `&*m_objects[i]` (the address of slot
`i`'s storage), `none` for `nullptr`.  `m_pool` records whether the parent
pool pointer is non-null.  `m_index` is the pool slot index; the source never
clears it, so a moved-from handle keeps its old index. -/
structure Pool.Object where
  m_ptr : Option Nat
  m_pool : Bool
  m_index : Nat
deriving DecidableEq, Repr

/-- `Pool<TType>::Object::isValid()`:
`return m_ptr != nullptr && m_pool != nullptr;` -/
def Pool.Object.isValid (h : Pool.Object) : Bool :=
  h.m_ptr.isSome && h.m_pool

/-- `Pool<TType>::Object::get()`: `return m_ptr;` — no validity check, the
raw (possibly null) pointer is returned. -/
def Pool.Object.get (h : Pool.Object) : Option Nat := h.m_ptr

/-- `Pool<TType>::Object::operator->()`: `return m_ptr;` — identical to
`get`, no validity check. -/
def Pool.Object.arrow (h : Pool.Object) : Option Nat := h.m_ptr

/-- `Pool<TType>::Object::operator*()`: `return *m_ptr;`.  Dereferencing is
modelled against the pool the pointer points into: `none` is the undefined
null-pointer dereference (no error is raised by the source — there is no
check), `some c` reads slot `c`'s storage. -/
def Pool.Object.star (p : Pool α) (h : Pool.Object) : Option (Option α) :=
  match h.m_ptr with
  | none => none
  | some i => p.m_objects.get? i

/-- `Pool<TType>::Object::~Object()`:
`if (m_ptr && m_pool) { m_pool->returnToPool(m_index); }` — the effect of
destroying (disposing) the handle on its pool. -/
def Pool.Object.dispose (h : Pool.Object) (p : Pool α) : Pool α :=
  if h.m_ptr.isSome && h.m_pool then p.returnToPool h.m_index else p

/-- `Pool<TType>::Object::Object(Object&&)`: the new handle copies
`m_ptr`, `m_pool`, `m_index` from `other`, then `other.m_ptr = nullptr;
other.m_pool = nullptr;` (`m_index` is left as-is).  Returns
(constructed handle, moved-from source). -/
def Pool.Object.moveCtor (other : Pool.Object) : Pool.Object × Pool.Object :=
  (⟨other.m_ptr, other.m_pool, other.m_index⟩, ⟨none, false, other.m_index⟩)

/-- `Pool<TType>::Object::operator=(Object&&)` for two distinct handles
(the `this != &other` branch): if `this` holds a valid binding it is first
returned to the pool via `returnToPool(m_index)`; then `this` takes `other`'s
fields and `other`'s `m_ptr`/`m_pool` are nulled.  Returns
(assigned-to handle, moved-from source, pool after the call). -/
def Pool.Object.moveAssign (this other : Pool.Object) (p : Pool α) :
    Pool.Object × Pool.Object × Pool α :=
  let p' := if this.m_ptr.isSome && this.m_pool then p.returnToPool this.m_index else p
  (⟨other.m_ptr, other.m_pool, other.m_index⟩, ⟨none, false, other.m_index⟩, p')

/-- `Pool<TType>::acquire(TArgs&&...)`.  `ctor` is the outcome of
`new (ptr) TType(std::forward<TArgs>(p_args)...)` for the given arguments
(`none` = the constructor throws).  Follows the source line by line: if
`m_available` is empty, throw; otherwise pop the top index, destroy the
slot's object in place (`ptr->~TType()`), reconstruct; on constructor failure
push the index back and re-throw; on success wrap `(ptr, this, index)` in an
`Object`.  Result: (pool after the call, handle if produced, error if any). -/
def Pool.acquire (ctor : Option α) (p : Pool α) :
    Pool α × Option Pool.Object × Option PoolError :=
  match p.m_available with
  | [] => (p, none, some .exhausted)
  | index :: rest =>
    match ctor with
    | none =>
      (⟨p.m_objects.set index none, index :: rest⟩, none, some .constructionFailed)
    | some v =>
      (⟨p.m_objects.set index (some v), rest⟩, some ⟨some index, true, index⟩, none)

/-- `Pool<TType>::~Pool()`: `for (TType* ptr : m_objects) delete ptr;` —
returns the list of destroyed objects (every slot's contents). -/
def Pool.destroy (p : Pool α) : List (Option α) := p.m_objects

/-!
## Operation sequences

A client-visible execution is a sequence of `resize`, `acquire` and
handle-disposal calls.  A `Config` pairs the pool with the live (not yet
destroyed) handles a client holds; `step` interprets one call exactly through
the definitions above. -/

/-- One client call: `resize(n)` (with `mk` the default-construction
outcomes), `acquire(args)` (with `ctor` the construction outcome), or running
the destructor of the `k`-th live handle. -/
inductive Cmd (α : Type) where
  | resize (mk : Nat → Option α) (n : Nat)
  | acquire (ctor : Option α)
  | dispose (k : Nat)

/-- A pool together with the handles a client currently holds. -/
structure Config (α : Type) where
  pool : Pool α
  handles : List Pool.Object

/-- The initial configuration: a fresh `Pool`, no handles. -/
def Config.init (α : Type) : Config α := ⟨Pool.empty α, []⟩

/-- Remove the `k`-th element of a list, returning it and the rest. -/
def removeAt : Nat → List Pool.Object → Option (Pool.Object × List Pool.Object)
  | _, [] => none
  | 0, h :: t => some (h, t)
  | k + 1, h :: t =>
    match removeAt k t with
    | none => none
    | some (x, t') => some (x, h :: t')

/-- Interpret one client call.  `resize` leaves the client's handles alone
(the source does not know about them); a successful `acquire` hands the
client a new handle; `dispose k` runs the destructor of the `k`-th live
handle and forgets it (a destructor runs once per handle). -/
def step (c : Config α) : Cmd α → Config α
  | .resize mk n => ⟨(c.pool.resize mk n).1, c.handles⟩
  | .acquire ctor =>
    match c.pool.acquire ctor with
    | (p', some h, _) => ⟨p', c.handles ++ [h]⟩
    | (p', none, _) => ⟨p', c.handles⟩
  | .dispose k =>
    match removeAt k c.handles with
    | some (h, rest) => ⟨h.dispose c.pool, rest⟩
    | none => c

/-- Run a sequence of client calls. -/
def run (c : Config α) : List (Cmd α) → Config α
  | [] => c
  | cmd :: cmds => run (step c cmd) cmds

/-- Number of live handles that are still valid (not moved-from). -/
def validCount (hs : List Pool.Object) : Nat :=
  hs.countP (fun h => h.isValid)

/-- The counting invariant: every slot is either on the free-index stack or
owned by exactly one valid live handle, and the slot count fits in `size_t`. -/
def Inv (c : Config α) : Prop :=
  c.pool.available + validCount c.handles = c.pool.size ∧ c.pool.size < U64

/-- A call is safe to take in `c` when it is not a `resize` issued while the
client still holds valid handles, and any `resize` count fits in `size_t`. -/
def stepSafe (c : Config α) : Cmd α → Bool
  | .resize _ n => validCount c.handles == 0 && decide (n < U64)
  | _ => true

/-- Every call of the sequence is safe at the point it executes. -/
def safeRun (c : Config α) : List (Cmd α) → Bool
  | [] => true
  | cmd :: cmds => stepSafe c cmd && safeRun (step c cmd) cmds

/-!
## Helper lemmas
-/

/-- What a successful `resize` build loop produces: slot `i` holds the
outcome of the `i`-th default construction, and the free-index stack is
`0..n-1` pushed in order (so `n-1` on top). -/
lemma buildStore_eq_some {α : Type} {mk : Nat → Option α} {n : Nat}
    {objs : List (Option α)} {avail : List Nat}
    (hb : buildStore mk n = some (objs, avail)) :
    objs = (List.range n).map mk ∧ avail = (List.range n).reverse := by
  induction n generalizing objs avail with
  | zero =>
    simp only [buildStore, Option.some.injEq, Prod.mk.injEq] at hb
    simp [← hb.1, ← hb.2]
  | succ n ih =>
    simp only [buildStore] at hb
    cases hbn : buildStore mk n with
    | none => rw [hbn] at hb; exact absurd hb (by simp)
    | some pr =>
      obtain ⟨o, a⟩ := pr
      rw [hbn] at hb
      cases hmk : mk n with
      | none => rw [hmk] at hb; exact absurd hb (by simp)
      | some v =>
        rw [hmk] at hb
        simp only [Option.some.injEq, Prod.mk.injEq] at hb
        obtain ⟨ho, ha⟩ := ih hbn
        constructor
        · rw [← hb.1, ho, List.range_succ, List.map_append, List.map_singleton, hmk]
        · rw [← hb.2, ha, List.range_succ, List.reverse_append]
          simp

/-- The build loop succeeds exactly when every default construction does. -/
lemma buildStore_isSome_iff {α : Type} (mk : Nat → Option α) (n : Nat) :
    (buildStore mk n).isSome = true ↔ ∀ i < n, mk i ≠ none := by
  induction n with
  | zero => simp [buildStore]
  | succ n ih =>
    constructor
    · intro h i hi
      simp only [buildStore] at h
      cases hbn : buildStore mk n with
      | none => rw [hbn] at h; simp at h
      | some pr =>
        obtain ⟨o, a⟩ := pr
        rw [hbn] at h
        cases hmk : mk n with
        | none => rw [hmk] at h; simp at h
        | some v =>
          rcases Nat.lt_succ_iff_lt_or_eq.mp hi with hlt | rfl
          · exact ih.mp (by rw [hbn]; rfl) i hlt
          · rw [hmk]; simp
    · intro h
      simp only [buildStore]
      cases hbn : buildStore mk n with
      | none =>
        have := ih.mpr (fun i hi => h i (Nat.lt_succ_of_lt hi))
        rw [hbn] at this; simp at this
      | some pr =>
        obtain ⟨o, a⟩ := pr
        cases hmk : mk n with
        | none => exact absurd hmk (h n (Nat.lt_succ_self n))
        | some v => simp

/-- Appending a handle adds its validity bit to the valid-handle count. -/
lemma validCount_append (hs : List Pool.Object) (h : Pool.Object) :
    validCount (hs ++ [h]) = validCount hs + (if h.isValid then 1 else 0) := by
  simp [validCount, List.countP_append, List.countP_cons]

/-- Removing the `k`-th handle removes its validity bit from the count. -/
lemma removeAt_validCount {k : Nat} {hs rest : List Pool.Object} {h : Pool.Object}
    (hr : removeAt k hs = some (h, rest)) :
    validCount hs = validCount rest + (if h.isValid then 1 else 0) := by
  induction hs generalizing k rest with
  | nil => simp [removeAt] at hr
  | cons a t ih =>
    cases k with
    | zero =>
      simp only [removeAt, Option.some.injEq, Prod.mk.injEq] at hr
      rw [← hr.1, ← hr.2]
      simp [validCount, List.countP_cons, Nat.add_comm]
    | succ k =>
      simp only [removeAt] at hr
      cases hrt : removeAt k t with
      | none => rw [hrt] at hr; simp at hr
      | some pr =>
        obtain ⟨x, t'⟩ := pr
        rw [hrt] at hr
        simp only [Option.some.injEq, Prod.mk.injEq] at hr
        obtain ⟨hx, hrest⟩ := hr
        subst hx
        rw [← hrest]
        have := ih hrt
        simp only [validCount, List.countP_cons] at this ⊢
        omega

/-- One safe client call preserves the counting invariant. -/
lemma Inv_step {α : Type} {c : Config α} {cmd : Cmd α}
    (hI : Inv c) (hS : stepSafe c cmd = true) : Inv (step c cmd) := by
  obtain ⟨hcount, hsize⟩ := hI
  cases cmd with
  | resize mk n =>
    simp only [stepSafe, Bool.and_eq_true, beq_iff_eq, decide_eq_true_eq] at hS
    obtain ⟨hv0, hn⟩ := hS
    simp only [step, Pool.resize]
    cases hb : buildStore mk n with
    | none =>
      simp only [hb, Inv, Pool.available, Pool.size]
      exact ⟨by simpa [Pool.available, Pool.size] using hcount, hsize⟩
    | some pr =>
      obtain ⟨objs, avail⟩ := pr
      obtain ⟨ho, ha⟩ := buildStore_eq_some hb
      subst ho ha
      simp only [hb, Inv, Pool.available, Pool.size, hv0]
      simp [hn]
  | acquire ctor =>
    simp only [step, Pool.acquire]
    cases hav : c.pool.m_available with
    | nil =>
      simpa [Inv, Pool.available, Pool.size] using ⟨hcount, hsize⟩
    | cons index rest =>
      cases ctor with
      | none =>
        simp only [Inv, Pool.available, Pool.size, List.length_cons,
          List.length_set] at hcount hsize ⊢
        rw [hav] at hcount
        simp only [List.length_cons] at hcount
        exact ⟨by simpa using hcount, hsize⟩
      | some v =>
        have hnew : (Pool.Object.mk (some index) true index).isValid = true := rfl
        simp only [Pool.available, Pool.size] at hcount hsize
        rw [hav] at hcount
        simp only [List.length_cons] at hcount
        simp only [Inv, Pool.available, Pool.size, List.length_set,
          validCount_append, hnew, if_pos]
        exact ⟨by omega, hsize⟩
  | dispose k =>
    simp only [step]
    cases hr : removeAt k c.handles with
    | none => exact ⟨hcount, hsize⟩
    | some pr =>
      obtain ⟨h, rest⟩ := pr
      have hcnt := removeAt_validCount hr
      have hde : h.dispose c.pool
          = if h.isValid then c.pool.returnToPool h.m_index else c.pool := rfl
      simp only [Pool.available, Pool.size] at hcount hsize
      cases hv : h.isValid with
      | true =>
        rw [hv] at hcnt
        simp only [if_pos] at hcnt
        simp only [hde, hv, if_pos, Inv, Pool.returnToPool, Pool.available,
          Pool.size, List.length_cons]
        exact ⟨by omega, hsize⟩
      | false =>
        rw [hv] at hcnt
        simp only [if_neg, Bool.false_eq_true, reduceIte] at hcnt
        simp only [hde, hv, Bool.false_eq_true, reduceIte, Inv, Pool.available,
          Pool.size]
        exact ⟨by omega, hsize⟩

/-- Running a safe sequence preserves the counting invariant. -/
lemma Inv_run {α : Type} (cmds : List (Cmd α)) (c : Config α)
    (hI : Inv c) (hS : safeRun c cmds = true) : Inv (run c cmds) := by
  induction cmds generalizing c with
  | nil => exact hI
  | cons cmd cmds ih =>
    simp only [safeRun, Bool.and_eq_true] at hS
    exact ih (step c cmd) (Inv_step hI hS.1) hS.2

/-- Under the invariant, `inUse` does not underflow and the count equation
holds over the natural numbers. -/
lemma Inv_counts {α : Type} {c : Config α} (hI : Inv c) :
    c.pool.available ≤ c.pool.size ∧
    c.pool.available + c.pool.inUse = c.pool.size := by
  obtain ⟨hcount, hsize⟩ := hI
  have hle : c.pool.available ≤ c.pool.size := by omega
  refine ⟨hle, ?_⟩
  have h1 : U64 + c.pool.size - c.pool.available
      = U64 + (c.pool.size - c.pool.available) := by omega
  have h2 : c.pool.size - c.pool.available < U64 := by omega
  simp only [Pool.inUse, h1, Nat.add_mod_left, Nat.mod_eq_of_lt h2]
  omega

/-- A prefix of a safe sequence is safe. -/
lemma safeRun_append_left {α : Type} {c : Config α} {l1 l2 : List (Cmd α)}
    (h : safeRun c (l1 ++ l2) = true) : safeRun c l1 = true := by
  induction l1 generalizing c with
  | nil => rfl
  | cons cmd t ih =>
    simp only [List.cons_append, safeRun, Bool.and_eq_true] at h ⊢
    exact ⟨h.1, ih h.2⟩

/-- A fresh pool satisfies the counting invariant. -/
lemma Inv_init (α : Type) : Inv (Config.init α) :=
  ⟨rfl, by norm_num [Config.init, Pool.empty, Pool.size, U64]⟩

/-!
## Claims
-/

/-- The operation sequence refuting claim C1 as stated: `resize(0)` is
issued while the handle from the first `acquire` is still outstanding, and
that stale handle is then disposed, pushing its index onto the free stack of
the now-empty pool. -/
def cexTrace : List (Cmd Nat) :=
  [Cmd.resize (fun _ => some 0) 2, Cmd.acquire (some 0),
   Cmd.resize (fun _ => some 0) 0, Cmd.dispose 0]

/-- Claim C1, counterexample: after the concrete sequence `resize(2)`;
`acquire()`; `resize(0)`; dispose of the first handle, the pool has
`available() = 1` but `size() = 0`: the number of free indices exceeds the
number of slots, `inUse() = size() - available()` underflows, and
`available() + inUse() = size()` fails over the natural numbers. -/
theorem counts_invariant_violated_across_resize :
    (run (Config.init Nat) cexTrace).pool.available +
        (run (Config.init Nat) cexTrace).pool.inUse ≠
      (run (Config.init Nat) cexTrace).pool.size ∧
    (run (Config.init Nat) cexTrace).pool.size <
      (run (Config.init Nat) cexTrace).pool.available := by
  decide

/-- Claim C1 (amended): for every sequence of `resize`, `acquire` and
handle-disposal operations starting from a fresh `Pool` in which every
`resize` is issued while no valid handles are outstanding (and every
requested slot count fits in `size_t`), at every externally observable
point — i.e. after every prefix of the sequence —
`available() + inUse() = size()` holds over the natural numbers, and the
number of free indices never exceeds the number of slots, so
`inUse() = size() - available()` does not underflow. -/
theorem counts_invariant_safe_sequences {α : Type} (pre suf : List (Cmd α))
    (hS : safeRun (Config.init α) (pre ++ suf) = true) :
    (run (Config.init α) pre).pool.available +
        (run (Config.init α) pre).pool.inUse =
      (run (Config.init α) pre).pool.size ∧
    (run (Config.init α) pre).pool.available ≤
      (run (Config.init α) pre).pool.size := by
  have hpre := safeRun_append_left hS
  have hI := Inv_run pre (Config.init α) (Inv_init α) hpre
  obtain ⟨hle, heq⟩ := Inv_counts hI
  exact ⟨heq, hle⟩

/-- Witness for the amended claim C1 at a concrete safe sequence. -/
theorem counts_invariant_safe_sequences_witness :
    (run (Config.init Nat)
          [Cmd.resize (fun _ => some 0) 2, Cmd.acquire (some 3)]).pool.available +
        (run (Config.init Nat)
          [Cmd.resize (fun _ => some 0) 2, Cmd.acquire (some 3)]).pool.inUse =
      (run (Config.init Nat)
          [Cmd.resize (fun _ => some 0) 2, Cmd.acquire (some 3)]).pool.size ∧
    (run (Config.init Nat)
          [Cmd.resize (fun _ => some 0) 2, Cmd.acquire (some 3)]).pool.available ≤
      (run (Config.init Nat)
          [Cmd.resize (fun _ => some 0) 2, Cmd.acquire (some 3)]).pool.size :=
  counts_invariant_safe_sequences
    [Cmd.resize (fun _ => some 0) 2, Cmd.acquire (some 3)]
    [Cmd.dispose 0] (by decide)

/-- Claim C2: on a pool with at least one free index, an `acquire` whose
in-place construction fails propagates the constructor's error, produces no
handle, and leaves the free-index stack exactly equal to its pre-call state
(the popped index is pushed back onto the top); a subsequent `acquire` with
good arguments then succeeds. -/
theorem acquire_construction_failure_rollback {α : Type} (p : Pool α)
    (hne : p.m_available ≠ []) :
    (p.acquire none).2.2 = some PoolError.constructionFailed ∧
    (p.acquire none).2.1 = none ∧
    (p.acquire none).1.m_available = p.m_available ∧
    ∀ v : α, ((p.acquire none).1.acquire (some v)).2.1.isSome = true := by
  obtain ⟨objs, avail⟩ := p
  cases avail with
  | nil => exact absurd rfl hne
  | cons index rest => exact ⟨rfl, rfl, rfl, fun v => rfl⟩

/-- Witness for claim C2: a concrete one-slot pool. -/
theorem acquire_construction_failure_rollback_witness :
    (Pool.acquire none (⟨[some 0], [0]⟩ : Pool Nat)).2.2 =
        some PoolError.constructionFailed ∧
    (Pool.acquire none (⟨[some 0], [0]⟩ : Pool Nat)).1.m_available = [0] ∧
    ((Pool.acquire none (⟨[some 0], [0]⟩ : Pool Nat)).1.acquire
        (some 5)).2.1.isSome = true :=
  ⟨(acquire_construction_failure_rollback (⟨[some 0], [0]⟩ : Pool Nat)
      (by decide)).1,
   (acquire_construction_failure_rollback (⟨[some 0], [0]⟩ : Pool Nat)
      (by decide)).2.2.1,
   (acquire_construction_failure_rollback (⟨[some 0], [0]⟩ : Pool Nat)
      (by decide)).2.2.2 5⟩

/-- Claim C4: `acquire` fails with the pool-exhausted error exactly when the
free-index stack is empty (`available() = 0`); in that case the pool state is
completely unchanged and no handle is produced; and after any valid handle is
disposed, a subsequent `acquire` with good arguments succeeds again. -/
theorem acquire_exhausted_iff {α : Type} (p : Pool α) (ctor : Option α) :
    ((p.acquire ctor).2.2 = some PoolError.exhausted ↔ p.available = 0) ∧
    (p.available = 0 → p.acquire ctor = (p, none, some PoolError.exhausted)) ∧
    (∀ h : Pool.Object, h.isValid = true → ∀ v : α,
      ((h.dispose p).acquire (some v)).2.1.isSome = true) := by
  obtain ⟨objs, avail⟩ := p
  refine ⟨?_, ?_, ?_⟩
  · cases avail with
    | nil => simp [Pool.acquire, Pool.available]
    | cons i rest =>
      cases ctor with
      | none => simp [Pool.acquire, Pool.available]
      | some v => simp [Pool.acquire, Pool.available]
  · intro h0
    cases avail with
    | nil => rfl
    | cons i rest => simp [Pool.available] at h0
  · intro h hv v
    have hv' : (h.m_ptr.isSome && h.m_pool) = true := hv
    simp only [Pool.Object.dispose, hv', if_true]
    rfl

/-- Witness for claim C4 at a concrete exhausted pool and a concrete valid
handle. -/
theorem acquire_exhausted_iff_witness :
    Pool.acquire (some 9) (⟨[some 1], []⟩ : Pool Nat) =
        ((⟨[some 1], []⟩ : Pool Nat), none, some PoolError.exhausted) ∧
    ((Pool.Object.dispose ⟨some 0, true, 0⟩ (⟨[some 1], []⟩ : Pool Nat)).acquire
        (some 4)).2.1.isSome = true :=
  ⟨(acquire_exhausted_iff (⟨[some 1], []⟩ : Pool Nat) (some 9)).2.1 rfl,
   (acquire_exhausted_iff (⟨[some 1], []⟩ : Pool Nat) (some 9)).2.2
      ⟨some 0, true, 0⟩ rfl 4⟩

/-- Claim C3: disposing a valid handle returns its index to the top of the
free-index stack but leaves the slot store untouched — the contained object
is not destroyed at disposal time.  The slot's object is destroyed (and the
slot overwritten) only by the next `acquire` that pops the same index, which
replaces exactly that slot and no other; if the pool is destroyed instead,
the slot's still-live contents are destroyed then. -/
theorem dispose_leaves_slot_alive {α : Type} (p : Pool α) (h : Pool.Object)
    (hv : h.isValid = true) (ctor : Option α) :
    (h.dispose p).m_objects = p.m_objects ∧
    (h.dispose p).m_available = h.m_index :: p.m_available ∧
    ((h.dispose p).acquire ctor).1.m_objects = p.m_objects.set h.m_index ctor ∧
    Pool.destroy (h.dispose p) = p.m_objects := by
  have hv' : (h.m_ptr.isSome && h.m_pool) = true := hv
  simp only [Pool.Object.dispose, hv', if_true]
  refine ⟨rfl, rfl, ?_, rfl⟩
  cases ctor with
  | none => rfl
  | some v => rfl

/-- Witness for claim C3: a concrete two-slot pool with slot `1` leased. -/
theorem dispose_leaves_slot_alive_witness :
    (Pool.Object.dispose ⟨some 1, true, 1⟩
        (⟨[some 10, some 20], [0]⟩ : Pool Nat)).m_objects = [some 10, some 20] ∧
    ((Pool.Object.dispose ⟨some 1, true, 1⟩
        (⟨[some 10, some 20], [0]⟩ : Pool Nat)).acquire (some 30)).1.m_objects =
      [some 10, some 30] :=
  ⟨(dispose_leaves_slot_alive (⟨[some 10, some 20], [0]⟩ : Pool Nat)
      ⟨some 1, true, 1⟩ rfl (some 30)).1,
   (dispose_leaves_slot_alive (⟨[some 10, some 20], [0]⟩ : Pool Nat)
      ⟨some 1, true, 1⟩ rfl (some 30)).2.2.1⟩

/-- Claim C5: if building the new slot store during `resize(n)` fails, the
pool's previous state — old slot store and old free-index stack, hence
`size()`, `available()`, `inUse()` — is left exactly as before the call, the
error is propagated, and none of the old objects are destroyed; the old
objects are destroyed exactly when the new store has been fully and
successfully built, which happens exactly when every one of the `n` default
constructions succeeds. -/
theorem resize_failure_preserves_state {α : Type} (p : Pool α)
    (mk : Nat → Option α) (n : Nat) :
    ((p.resize mk n).2.2 ≠ none →
       (p.resize mk n).2.2 = some PoolError.allocationFailed ∧
       (p.resize mk n).1 = p ∧ (p.resize mk n).2.1 = []) ∧
    ((p.resize mk n).2.2 = none → (p.resize mk n).2.1 = p.m_objects) ∧
    ((p.resize mk n).2.2 = none ↔ ∀ i < n, mk i ≠ none) := by
  have hiff := buildStore_isSome_iff mk n
  cases hb : buildStore mk n with
  | none =>
    rw [hb] at hiff
    simp only [Option.isSome_none, Bool.false_eq_true, false_iff] at hiff
    have hr : p.resize mk n = (p, [], some PoolError.allocationFailed) := by
      simp only [Pool.resize, hb]
    rw [hr]
    exact ⟨fun _ => ⟨rfl, rfl, rfl⟩, fun hc => absurd hc (by simp),
      fun hc => absurd hc (by simp), fun h => absurd h hiff⟩
  | some pr =>
    obtain ⟨objs, avail⟩ := pr
    rw [hb] at hiff
    simp only [Option.isSome_some, true_iff] at hiff
    have hr : p.resize mk n = (⟨objs, avail⟩, p.m_objects, none) := by
      simp only [Pool.resize, hb]
    rw [hr]
    exact ⟨fun hc => absurd rfl hc, fun _ => rfl, iff_of_true rfl hiff⟩

/-- Witness for claim C5: a failing and a succeeding concrete `resize`. -/
theorem resize_failure_preserves_state_witness :
    (Pool.resize (fun _ => (none : Option Nat)) 1
        (⟨[some 7], [0]⟩ : Pool Nat)).1 = (⟨[some 7], [0]⟩ : Pool Nat) ∧
    (Pool.resize (fun _ => (some 0 : Option Nat)) 1
        (⟨[some 7], [0]⟩ : Pool Nat)).2.1 = [some 7] :=
  ⟨((resize_failure_preserves_state (⟨[some 7], [0]⟩ : Pool Nat)
      (fun _ => none) 1).1 (by decide)).2.1,
   (resize_failure_preserves_state (⟨[some 7], [0]⟩ : Pool Nat)
      (fun _ => some 0) 1).2.1 (by decide)⟩

/-- Claim C6: free indices are reused in LIFO order: after `resize(3)` the
free-index stack is `[0,1,2]` with `2` on top, the first `acquire` binds
index `2`, and after that handle is disposed the next `acquire` binds index
`2` again, before indices `0` or `1` are ever handed out. -/
theorem acquire_lifo_reuse :
    ((Pool.resize (fun _ => some 0) 3 (Pool.empty Nat)).1.m_available =
        [2, 1, 0]) ∧
    (((Pool.resize (fun _ => some 0) 3 (Pool.empty Nat)).1.acquire
        (some 7)).2.1 = some ⟨some 2, true, 2⟩) ∧
    (((Pool.Object.dispose ⟨some 2, true, 2⟩
        ((Pool.resize (fun _ => some 0) 3 (Pool.empty Nat)).1.acquire
          (some 7)).1).acquire (some 8)).2.1 = some ⟨some 2, true, 2⟩) := by
  decide

/-- Claim C7: a successful `resize(n)` establishes `size() = n`,
`available() = n`, `inUse() = 0`, the free-index stack seeded with exactly
the indices `0..n-1` (pushed in order, so `n-1` on top), and every slot
holding the freshly default-constructed object of its construction. -/
theorem resize_success_state {α : Type} (p : Pool α) (mk : Nat → Option α)
    (n : Nat) (hok : (p.resize mk n).2.2 = none) :
    (p.resize mk n).1.size = n ∧
    (p.resize mk n).1.available = n ∧
    (p.resize mk n).1.inUse = 0 ∧
    (p.resize mk n).1.m_available = (List.range n).reverse ∧
    (p.resize mk n).1.m_objects = (List.range n).map mk := by
  cases hb : buildStore mk n with
  | none => simp [Pool.resize, hb] at hok
  | some pr =>
    obtain ⟨objs, avail⟩ := pr
    obtain ⟨ho, ha⟩ := buildStore_eq_some hb
    subst ho ha
    have hr : p.resize mk n =
        (⟨(List.range n).map mk, (List.range n).reverse⟩, p.m_objects, none) := by
      simp only [Pool.resize, hb]
    rw [hr]
    refine ⟨?_, ?_, ?_, rfl, rfl⟩
    · simp [Pool.size]
    · simp [Pool.available]
    · simp [Pool.inUse, Pool.size, Pool.available, Nat.add_sub_cancel,
        Nat.mod_self]

/-- Witness for claim C7: a concrete successful `resize(2)`. -/
theorem resize_success_state_witness :
    (Pool.resize (fun _ => some 0) 2 (Pool.empty Nat)).1.size = 2 ∧
    (Pool.resize (fun _ => some 0) 2 (Pool.empty Nat)).1.inUse = 0 ∧
    (Pool.resize (fun _ => some 0) 2 (Pool.empty Nat)).1.m_available = [1, 0] :=
  ⟨(resize_success_state (Pool.empty Nat) (fun _ => some 0) 2 (by decide)).1,
   (resize_success_state (Pool.empty Nat) (fun _ => some 0) 2 (by decide)).2.2.1,
   (resize_success_state (Pool.empty Nat) (fun _ => some 0) 2 (by decide)).2.2.2.1⟩

/-- Claim C8: moving a handle (by move construction or move assignment)
transfers the (pool, index) binding to the target — the target holds the
source's pointer and index and is valid — and leaves the source empty
(`isValid() = false`); the move itself leaves the pool, hence `inUse()`,
unchanged; if the move-assignment target already held a binding, that
binding is first returned to the free-index stack. -/
theorem object_move_transfers_binding {α : Type} (p : Pool α)
    (tgt src : Pool.Object) (hs : src.isValid = true) :
    (src.moveCtor.1.isValid = true ∧ src.moveCtor.2.isValid = false ∧
     src.moveCtor.1.m_ptr = src.m_ptr ∧ src.moveCtor.1.m_index = src.m_index) ∧
    ((Pool.Object.moveAssign tgt src p).1.isValid = true ∧
     (Pool.Object.moveAssign tgt src p).2.1.isValid = false ∧
     (Pool.Object.moveAssign tgt src p).1.m_ptr = src.m_ptr ∧
     (Pool.Object.moveAssign tgt src p).1.m_index = src.m_index ∧
     (tgt.isValid = false →
        (Pool.Object.moveAssign tgt src p).2.2 = p ∧
        (Pool.Object.moveAssign tgt src p).2.2.inUse = p.inUse) ∧
     (tgt.isValid = true →
        (Pool.Object.moveAssign tgt src p).2.2 = p.returnToPool tgt.m_index)) := by
  have hs' : (src.m_ptr.isSome && src.m_pool) = true := hs
  refine ⟨⟨hs', rfl, rfl, rfl⟩, hs', rfl, rfl, rfl, ?_, ?_⟩
  · intro ht
    have ht' : (tgt.m_ptr.isSome && tgt.m_pool) = false := ht
    simp only [Pool.Object.moveAssign, ht', Bool.false_eq_true, if_false]
    exact ⟨trivial, trivial⟩
  · intro ht
    have ht' : (tgt.m_ptr.isSome && tgt.m_pool) = true := ht
    simp only [Pool.Object.moveAssign, ht', if_true]

/-- Witness for claim C8: moving a concrete valid handle into a concrete
valid target over a concrete pool. -/
theorem object_move_transfers_binding_witness :
    (Pool.Object.moveCtor ⟨some 0, true, 0⟩).2.isValid = false ∧
    (Pool.Object.moveAssign ⟨some 1, true, 1⟩ ⟨some 0, true, 0⟩
        (⟨[some 3, some 4], []⟩ : Pool Nat)).2.2 =
      Pool.returnToPool 1 (⟨[some 3, some 4], []⟩ : Pool Nat) :=
  ⟨(object_move_transfers_binding (⟨[some 3, some 4], []⟩ : Pool Nat)
      ⟨some 1, true, 1⟩ ⟨some 0, true, 0⟩ rfl).1.2.1,
   (object_move_transfers_binding (⟨[some 3, some 4], []⟩ : Pool Nat)
      ⟨some 1, true, 1⟩ ⟨some 0, true, 0⟩ rfl).2.2.2.2.2.2 rfl⟩

/-- Claim C9: a valid handle returns its bound index to the free-index stack
exactly once over its lifetime — disposing it performs one `returnToPool`,
and after the binding is moved away the moved-from and moved-to handles
together still produce exactly the one return — while disposing an empty
(moved-from) handle is a no-op that leaves the whole pool state, including
`available()`, unchanged. -/
theorem handle_returns_index_once {α : Type} (p : Pool α) (h : Pool.Object) :
    (h.isValid = false → h.dispose p = p) ∧
    (h.isValid = true →
       h.dispose p = p.returnToPool h.m_index ∧
       (h.dispose p).available = p.available + 1 ∧
       (h.dispose p).m_objects = p.m_objects) ∧
    (h.moveCtor.2.dispose (h.moveCtor.1.dispose p) = h.dispose p) := by
  refine ⟨?_, ?_, rfl⟩
  · intro hv
    have hv' : (h.m_ptr.isSome && h.m_pool) = false := hv
    simp [Pool.Object.dispose, hv']
  · intro hv
    have hv' : (h.m_ptr.isSome && h.m_pool) = true := hv
    simp only [Pool.Object.dispose, hv', if_true]
    exact ⟨trivial, rfl, rfl⟩

/-- Witness for claim C9: a concrete moved-from handle and a concrete valid
handle over a one-slot pool. -/
theorem handle_returns_index_once_witness :
    Pool.Object.dispose ⟨none, false, 0⟩ (⟨[some 2], []⟩ : Pool Nat) =
        (⟨[some 2], []⟩ : Pool Nat) ∧
    (Pool.Object.dispose ⟨some 0, true, 0⟩
        (⟨[some 2], []⟩ : Pool Nat)).available = 1 :=
  ⟨(handle_returns_index_once (⟨[some 2], []⟩ : Pool Nat)
      ⟨none, false, 0⟩).1 rfl,
   ((handle_returns_index_once (⟨[some 2], []⟩ : Pool Nat)
      ⟨some 0, true, 0⟩).2.1 rfl).2.1⟩

/-- Claim C10: accessing an empty handle performs no runtime validity check:
`get()` and `operator->` return the stored pointer unconditionally, so on an
empty handle they return the null pointer rather than raising an error, and
`operator*` on an empty handle dereferences null (the undefined branch is
reached); a moved-from handle is exactly such an empty handle; and
`isValid()` returns `false` exactly when the handle's object pointer or pool
pointer is null. -/
theorem empty_handle_unchecked_access {α : Type} (p : Pool α)
    (h : Pool.Object) :
    (h.get = h.m_ptr ∧ h.arrow = h.m_ptr) ∧
    h.moveCtor.2.m_ptr = none ∧
    (h.m_ptr = none →
       h.get = none ∧ h.arrow = none ∧ h.star p = (none : Option (Option α))) ∧
    (h.isValid = false ↔ (h.m_ptr = none ∨ h.m_pool = false)) := by
  obtain ⟨mp, mpool, mi⟩ := h
  refine ⟨⟨rfl, rfl⟩, rfl, ?_, ?_⟩
  · intro hp
    subst hp
    exact ⟨rfl, rfl, rfl⟩
  · cases mp <;> cases mpool <;>
      simp [Pool.Object.isValid, Option.isSome]

/-- Witness for claim C10: the moved-from remnant of a concrete handle. -/
theorem empty_handle_unchecked_access_witness :
    Pool.Object.get ⟨none, false, 3⟩ = none ∧
    Pool.Object.star (⟨[some 1], [0]⟩ : Pool Nat) ⟨none, false, 3⟩ = none ∧
    Pool.Object.isValid ⟨none, false, 3⟩ = false :=
  ⟨((empty_handle_unchecked_access (⟨[some 1], [0]⟩ : Pool Nat)
      ⟨none, false, 3⟩).2.2.1 rfl).1,
   ((empty_handle_unchecked_access (⟨[some 1], [0]⟩ : Pool Nat)
      ⟨none, false, 3⟩).2.2.1 rfl).2.2,
   ((empty_handle_unchecked_access (⟨[some 1], [0]⟩ : Pool Nat)
      ⟨none, false, 3⟩).2.2.2).mpr (Or.inl rfl)⟩

end Libftpp
